import Mathlib

/-!
# Verification of the live metrics broadcaster (src/app.py)

Shallow embedding of the periodic metric-generation-and-broadcast loop of
the Flask/SocketIO analytics backend, together with the subscription state
and the persisted history it interacts with.

Modelling conventions:
* Python floats are modelled as rationals (ℚ); `round(x, 2)` is modelled by
  `round2`, rounding to an integer number of hundredths.  Python uses
  round-half-even on binary floats while Mathlib `round` is round-half-up;
  every concrete value used below is far from a half-way point, so the two
  agree on all inputs appearing in this development.
* ISO-8601 timestamp strings compare lexicographically in the same order as
  chronologically, so timestamps are modelled as naturals ordered by `≤`.
* SQLite queries `ORDER BY timestamp DESC LIMIT n` are modelled by a sort
  with respect to descending timestamp followed by `List.take n`; ties are
  broken arbitrarily by SQLite, and every theorem below is insensitive to
  the tie-breaking (it only uses sortedness, membership and the head being
  timestamp-maximal).
* The random draws of `generate_realistic_variation` and the random
  fallback of `generate_realistic_value` are passed in as explicit
  parameters (the drawn values), since the claims quantify over them.
-/

namespace Analytics

/-- Python `round(x, 2)`: round to an integer count of hundredths. -/
def round2 (x : ℚ) : ℚ := ((round (x * 100) : ℤ) : ℚ) / 100

/-- One entry of the `new_data` dict built in `generate_real_time_data`
(src/app.py lines 213-218): fields `value`, `timestamp`, `change`,
`change_percent`. -/
structure Sample where
  value : ℚ
  timestamp : Nat
  change : ℚ
  change_percent : ℚ
deriving DecidableEq

/-- The per-metric body of `generate_real_time_data` (src/app.py lines
208-218): `new_value = max(0, base_value + variation)`, value and change
rounded to 2 decimals, and `change_percent` guarded by `base_value != 0`. -/
def nextSample (base variation : ℚ) (ts : Nat) : Sample :=
  { value := round2 (max 0 (base + variation))
    timestamp := ts
    change := round2 variation
    change_percent := if base ≠ 0 then round2 (variation / base * 100) else 0 }

/-- One row of the `analytics_data` table (columns used by the broadcaster:
`metric_name`, `value`, `timestamp`, `category`, `source`). -/
structure HistoryRecord where
  metric_name : String
  value : ℚ
  timestamp : Nat
  category : String
  source : String
deriving DecidableEq

/-- Descending-timestamp order used by `ORDER BY timestamp DESC`. -/
def tsDesc (a b : HistoryRecord) : Prop := b.timestamp ≤ a.timestamp

instance : DecidableRel tsDesc := fun a b => Nat.decLe b.timestamp a.timestamp

instance : IsTotal HistoryRecord tsDesc := ⟨fun a b => le_total b.timestamp a.timestamp⟩

instance : IsTrans HistoryRecord tsDesc := ⟨fun _ _ _ h1 h2 => le_trans h2 h1⟩

/-- The WHERE clause of the `/api/v1/analytics/historical` query (src/app.py
lines 536-546): `timestamp >= since`, plus `metric_name = m` when a metric
filter is supplied. -/
def matchesQuery (metric : Option String) (since : Nat) (r : HistoryRecord) : Bool :=
  decide (since ≤ r.timestamp) &&
    (match metric with
     | none => true
     | some m => r.metric_name == m)

/-- The `/api/v1/analytics/historical` query (src/app.py lines 536-550):
filter by timestamp and optional metric, `ORDER BY timestamp DESC LIMIT
1000`. -/
def historical_data (db : List HistoryRecord) (metric : Option String) (since : Nat) :
    List HistoryRecord :=
  (List.insertionSort tsDesc (db.filter (matchesQuery metric since))).take 1000

/-- `get_latest_metric_value` (src/app.py lines 228-243): `SELECT value ...
WHERE metric_name = ? ORDER BY timestamp DESC LIMIT 1`; when no row exists
it falls back to `generate_realistic_value(metric, 0, 12)`, a freshly drawn
random value, modelled by the explicit `fallback` parameter. -/
def get_latest_metric_value (db : List HistoryRecord) (metric : String) (fallback : ℚ) : ℚ :=
  match List.insertionSort tsDesc (db.filter (fun r => r.metric_name == metric)) with
  | [] => fallback
  | r :: _ => r.value

/-- The fixed broadcast metric set of `generate_real_time_data`
(src/app.py line 205). -/
def realtime_metrics : List String :=
  ["revenue", "active_users", "orders", "conversion_rate", "page_views"]

/-- The `new_data` dict built on one active tick (src/app.py lines
205-218): one `Sample` per metric in `realtime_metrics`, based on the
latest stored value.  `variation` gives the random draw of
`generate_realistic_variation` per metric, `fallback` the random value
`get_latest_metric_value` would generate for a metric with no rows. -/
def generate_tick (db : List HistoryRecord) (variation fallback : String → ℚ) (ts : Nat) :
    List (String × Sample) :=
  realtime_metrics.map fun m =>
    (m, nextSample (get_latest_metric_value db m (fallback m)) (variation m) ts)

/-- `store_real_time_data` (src/app.py lines 256-268): append one row per
metric with category `realtime` and source `live`. -/
def store_real_time_data (db : List HistoryRecord) (data : List (String × Sample)) :
    List HistoryRecord :=
  db ++ data.map fun p =>
    { metric_name := p.1, value := p.2.value, timestamp := p.2.timestamp
      category := "realtime", source := "live" }

/-- A SocketIO room.  `handle_connect` joins the fixed room `analytics`;
`handle_metric_subscription` joins the room named by the f-string
`metric_<name>` (src/app.py line 669).  The two name families are disjoint
("analytics" never has the prefix "metric_"), so rooms are modelled by this
injective tagged type. -/
inductive Room where
  | analytics : Room
  | metric (name : String) : Room
deriving DecidableEq

/-- Member list of a room (first matching entry of the association list). -/
def lookupRoom (room : Room) : List (Room × List String) → List String
  | [] => []
  | (r, ms) :: rest => if r = room then ms else lookupRoom room rest

/-- `join_room`: add `sid` to the room, a no-op when already a member. -/
def joinRoom (room : Room) (sid : String) :
    List (Room × List String) → List (Room × List String)
  | [] => [(room, [sid])]
  | (r, ms) :: rest =>
      if r = room then (r, if sid ∈ ms then ms else ms ++ [sid]) :: rest
      else (r, ms) :: joinRoom room sid rest

/-- `leave_room`: remove `sid` from the room, a no-op when absent. -/
def leaveRoom (room : Room) (sid : String) :
    List (Room × List String) → List (Room × List String)
  | [] => []
  | (r, ms) :: rest =>
      if r = room then (r, ms.filter (· != sid)) :: rest
      else (r, ms) :: leaveRoom room sid rest

/-- The module-level mutable state of src/app.py touched by the broadcaster:
`connected_clients`, the SocketIO room membership, the shared snapshot
`real_time_data`, the `analytics_data` table, and whether the daemon thread
running `generate_real_time_data` is still alive (an uncaught exception in
the loop body terminates it). -/
structure AppState where
  connected_clients : List String
  rooms : List (Room × List String)
  real_time_data : List (String × Sample)
  db : List HistoryRecord
  threadAlive : Bool
deriving DecidableEq

/-- Process start: no clients, no rooms, empty snapshot, seeded table. -/
def initialState (db0 : List HistoryRecord) : AppState :=
  { connected_clients := [], rooms := [], real_time_data := [], db := db0
    threadAlive := true }

/-- `handle_connect` (src/app.py lines 647-656): add the sid to
`connected_clients` and join the `analytics` room. -/
def handle_connect (sid : String) (st : AppState) : AppState :=
  { st with
    connected_clients :=
      if sid ∈ st.connected_clients then st.connected_clients
      else st.connected_clients ++ [sid]
    rooms := joinRoom Room.analytics sid st.rooms }

/-- `handle_disconnect` (src/app.py lines 658-662): `discard` the sid from
`connected_clients` and leave the `analytics` room. -/
def handle_disconnect (sid : String) (st : AppState) : AppState :=
  { st with
    connected_clients := st.connected_clients.filter (· != sid)
    rooms := leaveRoom Room.analytics sid st.rooms }

/-- `handle_metric_subscription` (src/app.py lines 664-674):
`data.get('metric')` must be present and truthy (non-empty), then the sid
joins the room `metric_<name>`.  Nothing else changes. -/
def handle_metric_subscription (metric : Option String) (sid : String) (st : AppState) :
    AppState :=
  match metric with
  | none => st
  | some m =>
      if m = "" then st
      else { st with rooms := joinRoom (Room.metric m) sid st.rooms }

/-- One pass of the `while True` body of `generate_real_time_data`
(src/app.py lines 202-226).  A dead thread performs no pass at all.  While
`connected_clients` is empty the body does nothing.  Otherwise it builds
`new_data`, publishes the snapshot, emits `analytics_update` to the
`analytics` room (the returned delivery list), and then calls
`store_real_time_data`.  The store call has no exception handler: `storeOk
= false` models a raised append failure, which occurs after the emit and
terminates the thread.  Returns the new state and the sids the emit
delivered to. -/
def tick (st : AppState) (variation fallback : String → ℚ) (ts : Nat) (storeOk : Bool) :
    AppState × List String :=
  if st.threadAlive then
    if st.connected_clients.isEmpty then (st, [])
    else
      let new_data := generate_tick st.db variation fallback ts
      ({ st with
          real_time_data := new_data
          db := if storeOk then store_real_time_data st.db new_data else st.db
          threadAlive := storeOk },
        lookupRoom Room.analytics st.rooms)
  else (st, [])

/-- The `/api/v1/analytics/realtime` endpoint (src/app.py lines 506-513):
returns the shared `real_time_data` snapshot as is. -/
def realtime_data (st : AppState) : List (String × Sample) := st.real_time_data

/-- An event on the shared state: one of the three socket handlers, or one
wake-up of the broadcaster loop timer. -/
inductive Event where
  | connect (sid : String) : Event
  | disconnect (sid : String) : Event
  | subscribe (metric : Option String) (sid : String) : Event
  | timerTick (ts : Nat) (storeOk : Bool) : Event
deriving DecidableEq

/-- Apply one event to the state. -/
def applyEvent (variation fallback : String → ℚ) : Event → AppState → AppState
  | Event.connect sid, st => handle_connect sid st
  | Event.disconnect sid, st => handle_disconnect sid st
  | Event.subscribe m sid, st => handle_metric_subscription m sid st
  | Event.timerTick ts ok, st => (tick st variation fallback ts ok).1

/-- Run a sequence of events. -/
def runEvents (variation fallback : String → ℚ) : List Event → AppState → AppState
  | [], st => st
  | e :: rest, st => runEvents variation fallback rest (applyEvent variation fallback e st)

/-- All sids that receive an `analytics_update` emission over a sequence of
events (only timer ticks emit). -/
def deliveredDuring (variation fallback : String → ℚ) : List Event → AppState → List String
  | [], _ => []
  | Event.timerTick ts ok :: rest, st =>
      (tick st variation fallback ts ok).2 ++
        deliveredDuring variation fallback rest (tick st variation fallback ts ok).1
  | e :: rest, st => deliveredDuring variation fallback rest (applyEvent variation fallback e st)

/-! ## Helper lemmas -/

theorem lookupRoom_cons_pos (room : Room) (ms : List String)
    (rest : List (Room × List String)) : lookupRoom room ((room, ms) :: rest) = ms := by
  simp [lookupRoom]

theorem lookupRoom_cons_neg (room r : Room) (ms : List String)
    (rest : List (Room × List String)) (h : r ≠ room) :
    lookupRoom room ((r, ms) :: rest) = lookupRoom room rest := by
  simp [lookupRoom, h]

theorem joinRoom_cons_pos (room : Room) (sid : String) (ms : List String)
    (rest : List (Room × List String)) :
    joinRoom room sid ((room, ms) :: rest) =
      (room, if sid ∈ ms then ms else ms ++ [sid]) :: rest := by
  simp [joinRoom]

theorem joinRoom_cons_neg (room r : Room) (sid : String) (ms : List String)
    (rest : List (Room × List String)) (h : r ≠ room) :
    joinRoom room sid ((r, ms) :: rest) = (r, ms) :: joinRoom room sid rest := by
  simp [joinRoom, h]

theorem leaveRoom_cons_pos (room : Room) (sid : String) (ms : List String)
    (rest : List (Room × List String)) :
    leaveRoom room sid ((room, ms) :: rest) = (room, ms.filter (· != sid)) :: rest := by
  simp [leaveRoom]

theorem leaveRoom_cons_neg (room r : Room) (sid : String) (ms : List String)
    (rest : List (Room × List String)) (h : r ≠ room) :
    leaveRoom room sid ((r, ms) :: rest) = (r, ms) :: leaveRoom room sid rest := by
  simp [leaveRoom, h]

theorem mem_lookupRoom_joinRoom_self (room : Room) (sid c : String)
    (rooms : List (Room × List String)) :
    c ∈ lookupRoom room (joinRoom room sid rooms) ↔ c = sid ∨ c ∈ lookupRoom room rooms := by
  induction rooms with
  | nil => simp [joinRoom, lookupRoom]
  | cons p rest ih =>
      obtain ⟨r, ms⟩ := p
      by_cases hr : r = room
      · subst hr
        rw [joinRoom_cons_pos, lookupRoom_cons_pos, lookupRoom_cons_pos]
        by_cases hs : sid ∈ ms
        · rw [if_pos hs]
          constructor
          · exact fun h => Or.inr h
          · rintro (rfl | h)
            · exact hs
            · exact h
        · rw [if_neg hs]
          simp only [List.mem_append, List.mem_singleton]
          tauto
      · rw [joinRoom_cons_neg _ _ _ _ _ hr, lookupRoom_cons_neg _ _ _ _ hr,
          lookupRoom_cons_neg _ _ _ _ hr]
        exact ih

theorem lookupRoom_joinRoom_ne (room room' : Room) (sid : String)
    (rooms : List (Room × List String)) (h : room ≠ room') :
    lookupRoom room (joinRoom room' sid rooms) = lookupRoom room rooms := by
  have h' : room' ≠ room := fun hh => h hh.symm
  induction rooms with
  | nil =>
      rw [show joinRoom room' sid [] = [(room', [sid])] from rfl,
        lookupRoom_cons_neg _ _ _ _ h']
  | cons p rest ih =>
      obtain ⟨r, ms⟩ := p
      by_cases hr : r = room'
      · subst hr
        rw [joinRoom_cons_pos, lookupRoom_cons_neg _ _ _ _ h', lookupRoom_cons_neg _ _ _ _ h']
      · rw [joinRoom_cons_neg _ _ _ _ _ hr]
        by_cases hr2 : r = room
        · subst hr2
          rw [lookupRoom_cons_pos, lookupRoom_cons_pos]
        · rw [lookupRoom_cons_neg _ _ _ _ hr2, lookupRoom_cons_neg _ _ _ _ hr2]
          exact ih

theorem mem_lookupRoom_leaveRoom (room room' : Room) (sid c : String)
    (rooms : List (Room × List String)) :
    c ∈ lookupRoom room (leaveRoom room' sid rooms) → c ∈ lookupRoom room rooms := by
  induction rooms with
  | nil => simp [leaveRoom, lookupRoom]
  | cons p rest ih =>
      obtain ⟨r, ms⟩ := p
      by_cases hr : r = room'
      · subst hr
        rw [leaveRoom_cons_pos]
        by_cases hr2 : r = room
        · subst hr2
          rw [lookupRoom_cons_pos, lookupRoom_cons_pos]
          intro h
          exact (List.mem_filter.mp h).1
        · rw [lookupRoom_cons_neg _ _ _ _ hr2, lookupRoom_cons_neg _ _ _ _ hr2]
          exact id
      · rw [leaveRoom_cons_neg _ _ _ _ _ hr]
        by_cases hr2 : r = room
        · subst hr2
          rw [lookupRoom_cons_pos, lookupRoom_cons_pos]
          exact id
        · rw [lookupRoom_cons_neg _ _ _ _ hr2, lookupRoom_cons_neg _ _ _ _ hr2]
          exact ih

theorem not_mem_lookupRoom_leaveRoom_self (room : Room) (sid : String)
    (rooms : List (Room × List String)) :
    sid ∉ lookupRoom room (leaveRoom room sid rooms) := by
  induction rooms with
  | nil => simp [leaveRoom, lookupRoom]
  | cons p rest ih =>
      obtain ⟨r, ms⟩ := p
      by_cases hr : r = room
      · subst hr
        rw [leaveRoom_cons_pos, lookupRoom_cons_pos]
        intro h
        have h2 := (List.mem_filter.mp h).2
        simp at h2
      · rw [leaveRoom_cons_neg _ _ _ _ _ hr, lookupRoom_cons_neg _ _ _ _ hr]
        exact ih

theorem leaveRoom_of_not_mem (room : Room) (sid : String)
    (rooms : List (Room × List String)) (h : sid ∉ lookupRoom room rooms) :
    leaveRoom room sid rooms = rooms := by
  induction rooms with
  | nil => rfl
  | cons p rest ih =>
      obtain ⟨r, ms⟩ := p
      by_cases hr : r = room
      · subst hr
        simp only [lookupRoom, if_pos rfl] at h
        have : ms.filter (· != sid) = ms := by
          apply List.filter_eq_self.mpr
          intro a ha
          simp only [bne_iff_ne, ne_eq, decide_eq_true_eq]
          intro hc
          exact h (hc ▸ ha)
        simp [leaveRoom, this]
      · simp only [lookupRoom, if_neg hr] at h
        simp [leaveRoom, hr, ih h]

theorem tick_rooms (st : AppState) (variation fallback : String → ℚ) (ts : Nat)
    (storeOk : Bool) : (tick st variation fallback ts storeOk).1.rooms = st.rooms := by
  unfold tick
  split <;> [skip; rfl]
  split <;> rfl

theorem tick_connected (st : AppState) (variation fallback : String → ℚ) (ts : Nat)
    (storeOk : Bool) :
    (tick st variation fallback ts storeOk).1.connected_clients = st.connected_clients := by
  unfold tick
  split <;> [skip; rfl]
  split <;> rfl

theorem tick_delivered_mem (st : AppState) (variation fallback : String → ℚ) (ts : Nat)
    (storeOk : Bool) (c : String) (h : c ∈ (tick st variation fallback ts storeOk).2) :
    c ∈ lookupRoom Room.analytics st.rooms := by
  unfold tick at h
  split at h <;> [skip; simp at h]
  split at h <;> [simp at h; exact h]

theorem tick_active (st : AppState) (variation fallback : String → ℚ) (ts : Nat)
    (storeOk : Bool) (halive : st.threadAlive = true)
    (hne : st.connected_clients.isEmpty = false) :
    tick st variation fallback ts storeOk =
      ({ st with
          real_time_data := generate_tick st.db variation fallback ts
          db := if storeOk then
              store_real_time_data st.db (generate_tick st.db variation fallback ts)
            else st.db
          threadAlive := storeOk },
        lookupRoom Room.analytics st.rooms) := by
  unfold tick
  rw [halive, hne]
  simp

theorem tick_dead (st : AppState) (variation fallback : String → ℚ) (ts : Nat)
    (storeOk : Bool) (h : st.threadAlive = false) :
    tick st variation fallback ts storeOk = (st, []) := by
  unfold tick
  rw [h]
  simp

theorem tick_idle (st : AppState) (variation fallback : String → ℚ) (ts : Nat)
    (storeOk : Bool) (h : st.connected_clients.isEmpty = true) :
    tick st variation fallback ts storeOk = (st, []) := by
  unfold tick
  cases halive : st.threadAlive
  · simp
  · simp [h]

theorem insertionSort_head_max (l : List HistoryRecord) (r : HistoryRecord)
    (t : List HistoryRecord) (h : List.insertionSort tsDesc l = r :: t) :
    r ∈ l ∧ ∀ x ∈ l, x.timestamp ≤ r.timestamp := by
  have hperm : List.Perm (List.insertionSort tsDesc l) l := List.perm_insertionSort tsDesc l
  have hsort : List.Sorted tsDesc (List.insertionSort tsDesc l) :=
    List.sorted_insertionSort tsDesc l
  rw [h] at hperm hsort
  constructor
  · exact hperm.mem_iff.mp (List.mem_cons_self r t)
  · intro x hx
    rcases List.mem_cons.mp (hperm.mem_iff.mpr hx) with rfl | hx'
    · exact le_rfl
    · exact List.rel_of_sorted_cons hsort x hx'

theorem round2_idem (x : ℚ) : round2 (round2 x) = round2 x := by
  unfold round2
  have h100 : (100 : ℚ) ≠ 0 := by norm_num
  rw [div_mul_cancel₀ _ h100, round_intCast]

theorem round2_nonneg (x : ℚ) (h : 0 ≤ x) : 0 ≤ round2 x := by
  unfold round2
  apply div_nonneg _ (by norm_num)
  have : (0 : ℤ) ≤ round (x * 100) := by
    rw [round_eq]
    exact Int.floor_nonneg.mpr (by positivity)
  exact_mod_cast this

/-! ## Claims -/

/-- C2 counterexample.  The claim says `delta_percent` equals
`delta / previous_value * 100` exactly and is `0` iff `previous_value = 0`.
Both parts fail on the code: with previous value `100` and delta `0` the
stored `change_percent` is `0` although the previous value is nonzero, and
with previous value `3` and delta `1` the stored value is the rounded
`33.33`, not `100/3`. -/
theorem change_percent_zero_with_nonzero_base :
    (nextSample 100 0 1).change_percent = 0 ∧ (100 : ℚ) ≠ 0 ∧
      (nextSample 3 1 1).change_percent ≠ 1 / 3 * 100 := by
  refine ⟨?_, by norm_num, ?_⟩
  · simp only [nextSample]
    norm_num [round2, round_eq]
  · simp only [nextSample]
    norm_num [round2, round_eq]

/-- C2 (amended).  `change_percent` equals `delta / previous_value * 100`
rounded to two decimals when the previous value is nonzero, and equals `0`
when the previous value is zero (only this direction of the iff holds). -/
theorem change_percent_formula (base variation : ℚ) (ts : Nat) :
    (base ≠ 0 →
      (nextSample base variation ts).change_percent = round2 (variation / base * 100)) ∧
    (base = 0 → (nextSample base variation ts).change_percent = 0) := by
  constructor
  · intro h
    simp [nextSample, h]
  · intro h
    simp [nextSample, h]

/-- C2 witness: the amended formula evaluated at previous value 3, delta 1
and at previous value 0, delta 5. -/
theorem change_percent_formula_witness :
    (nextSample 3 1 0).change_percent = round2 (1 / 3 * 100) ∧
      (nextSample 0 5 0).change_percent = 0 :=
  ⟨(change_percent_formula 3 1 0).1 (by norm_num), (change_percent_formula 0 5 0).2 rfl⟩

/-- C7.  The generated value is clamped with `max(0, ...)` before rounding,
so it is non-negative for every metric, previous value and delta, including
negative deltas larger in magnitude than the previous value. -/
theorem next_value_nonneg (base variation : ℚ) (ts : Nat) :
    0 ≤ (nextSample base variation ts).value :=
  round2_nonneg _ (le_max_left 0 _)

/-- C6 counterexample.  The claim says `latest` returns "not found" when no
record for the metric exists.  The code instead falls back to
`generate_realistic_value(metric, 0, 12)`, a fresh random draw: on an empty
table the result is whatever value that draw produces (here two different
draws give two different successful numeric answers), not a distinguished
not-found result. -/
theorem latest_missing_metric_returns_fallback :
    get_latest_metric_value [] "revenue" 42 = 42 ∧
      get_latest_metric_value [] "revenue" 7 = 7 ∧ (42 : ℚ) ≠ 7 := by
  decide

/-- C6 (amended).  When at least one record for the metric exists,
`get_latest_metric_value` returns the value of a stored record of that
metric with the greatest timestamp; when none exists it returns the freshly
generated fallback value instead of reporting "not found". -/
theorem latest_metric_value_spec (db : List HistoryRecord) (metric : String) (fallback : ℚ) :
    (db.filter (fun r => r.metric_name == metric) = [] →
      get_latest_metric_value db metric fallback = fallback) ∧
    (db.filter (fun r => r.metric_name == metric) ≠ [] →
      ∃ r, r ∈ db ∧ r.metric_name = metric ∧
        get_latest_metric_value db metric fallback = r.value ∧
        ∀ x ∈ db, x.metric_name = metric → x.timestamp ≤ r.timestamp) := by
  constructor
  · intro h
    unfold get_latest_metric_value
    rw [h]
    rfl
  · intro h
    cases hs : List.insertionSort tsDesc (db.filter (fun r => r.metric_name == metric)) with
    | nil =>
        exfalso
        apply h
        have hperm : List.Perm (List.insertionSort tsDesc
            (db.filter (fun r => r.metric_name == metric)))
            (db.filter (fun r => r.metric_name == metric)) :=
          List.perm_insertionSort tsDesc _
        rw [hs] at hperm
        exact (hperm.symm.eq_nil)
    | cons r t =>
        obtain ⟨hrmem, hmax⟩ := insertionSort_head_max _ r t hs
        refine ⟨r, (List.mem_filter.mp hrmem).1, ?_, ?_, ?_⟩
        · have := (List.mem_filter.mp hrmem).2
          simpa using this
        · unfold get_latest_metric_value
          rw [hs]
        · intro x hx hname
          exact hmax x (List.mem_filter.mpr ⟨hx, by simp [hname]⟩)

/-- C6 witness: the amended statement applied to a one-row table holding
`revenue = 100`. -/
theorem latest_metric_value_spec_witness :
    ([(⟨"revenue", 100, 0, "historical", "system"⟩ : HistoryRecord)].filter
        (fun r => r.metric_name == "revenue") ≠ []) ∧
    (∃ r, r ∈ [(⟨"revenue", 100, 0, "historical", "system"⟩ : HistoryRecord)] ∧
      r.metric_name = "revenue" ∧
      get_latest_metric_value [(⟨"revenue", 100, 0, "historical", "system"⟩ : HistoryRecord)]
        "revenue" 50 = r.value ∧
      ∀ x ∈ [(⟨"revenue", 100, 0, "historical", "system"⟩ : HistoryRecord)],
        x.metric_name = "revenue" → x.timestamp ≤ r.timestamp) :=
  ⟨by decide,
    (latest_metric_value_spec [⟨"revenue", 100, 0, "historical", "system"⟩] "revenue" 50).2
      (by decide)⟩

/-- C5.  The historical query returns only records with `timestamp >=
since` that match the metric filter when one is given, sorted by timestamp
descending, and at most 1000 of them. -/
theorem historical_data_range_spec (db : List HistoryRecord) (metric : Option String)
    (since : Nat) :
    (∀ r ∈ historical_data db metric since,
      since ≤ r.timestamp ∧ ∀ m, metric = some m → r.metric_name = m) ∧
    List.Sorted tsDesc (historical_data db metric since) ∧
    (historical_data db metric since).length ≤ 1000 := by
  refine ⟨?_, ?_, List.length_take_le 1000 _⟩
  · intro r hr
    have hr2 : r ∈ List.insertionSort tsDesc (db.filter (matchesQuery metric since)) :=
      List.mem_of_mem_take hr
    have hr3 : r ∈ db.filter (matchesQuery metric since) :=
      (List.perm_insertionSort tsDesc _).mem_iff.mp hr2
    have hq := (List.mem_filter.mp hr3).2
    unfold matchesQuery at hq
    rw [Bool.and_eq_true] at hq
    constructor
    · exact of_decide_eq_true hq.1
    · intro m hm
      rw [hm] at hq
      exact eq_of_beq hq.2
  · exact List.Pairwise.sublist (List.take_sublist 1000 _)
      (List.sorted_insertionSort tsDesc _)

/-- C5 witness: the range statement applied to a three-row table with
metric filter `revenue` and cutoff 2. -/
theorem historical_data_range_spec_witness :
    (∀ r ∈ historical_data
        [(⟨"revenue", 10, 1, "sales", "historical"⟩ : HistoryRecord),
          ⟨"revenue", 20, 3, "sales", "historical"⟩,
          ⟨"orders", 5, 4, "sales", "historical"⟩]
        (some "revenue") 2,
      2 ≤ r.timestamp ∧ ∀ m, some "revenue" = some m → r.metric_name = m) ∧
    List.Sorted tsDesc (historical_data
        [(⟨"revenue", 10, 1, "sales", "historical"⟩ : HistoryRecord),
          ⟨"revenue", 20, 3, "sales", "historical"⟩,
          ⟨"orders", 5, 4, "sales", "historical"⟩]
        (some "revenue") 2) ∧
    (historical_data
        [(⟨"revenue", 10, 1, "sales", "historical"⟩ : HistoryRecord),
          ⟨"revenue", 20, 3, "sales", "historical"⟩,
          ⟨"orders", 5, 4, "sales", "historical"⟩]
        (some "revenue") 2).length ≤ 1000 :=
  historical_data_range_spec
    [⟨"revenue", 10, 1, "sales", "historical"⟩,
      ⟨"revenue", 20, 3, "sales", "historical"⟩,
      ⟨"orders", 5, 4, "sales", "historical"⟩]
    (some "revenue") 2

/-- C4.  While `connected_clients` is empty a timer tick performs no work at
all: the state (snapshot, database, thread flag, registry) is unchanged and
nothing is delivered. -/
theorem idle_tick_noop (st : AppState) (variation fallback : String → ℚ) (ts : Nat)
    (storeOk : Bool) (h : st.connected_clients.isEmpty = true) :
    tick st variation fallback ts storeOk = (st, []) :=
  tick_idle st variation fallback ts storeOk h

/-- C4 witness: a tick on the freshly started state with no consumers is a
no-op. -/
theorem idle_tick_noop_witness :
    tick (initialState []) (fun _ => 0) (fun _ => 100) 0 true = (initialState [], []) :=
  idle_tick_noop (initialState []) (fun _ => 0) (fun _ => 100) 0 true rfl

theorem generate_tick_keys (db : List HistoryRecord) (variation fallback : String → ℚ)
    (ts : Nat) : (generate_tick db variation fallback ts).map Prod.fst = realtime_metrics :=
  rfl

/-- C1 counterexample.  A consumer that connects and then subscribes to
`revenue` still receives the broadcast of every metric: `subscribe_to_metric`
only joins an extra `metric_revenue` room, while `analytics_update` is
always emitted to the `analytics` room the consumer stays in, carrying the
samples of all five metrics, among them `orders`. -/
theorem subscribe_revenue_still_receives_orders :
    "A" ∈ (tick (handle_metric_subscription (some "revenue") "A"
        (handle_connect "A" (initialState []))) (fun _ => 0) (fun _ => 100) 1 true).2 ∧
    "orders" ∈ ((tick (handle_metric_subscription (some "revenue") "A"
        (handle_connect "A" (initialState []))) (fun _ => 0) (fun _ => 100) 1
        true).1.real_time_data).map Prod.fst ∧
    "orders" ≠ "revenue" := by
  refine ⟨by decide, ?_, by decide⟩
  show "orders" ∈ realtime_metrics
  decide

/-- C1 (amended).  Every consumer in the `analytics` room receives every
sample of an active tick (the emitted `new_data` carries exactly the five
broadcast metrics), and subscribing to `revenue` does not change who the
broadcast is delivered to: subscriptions never restrict delivery. -/
theorem broadcast_delivers_to_all_room_members (st : AppState)
    (variation fallback : String → ℚ) (ts : Nat) (storeOk : Bool) (c : String)
    (halive : st.threadAlive = true) (hne : st.connected_clients.isEmpty = false)
    (hc : c ∈ lookupRoom Room.analytics st.rooms) :
    (c ∈ (tick st variation fallback ts storeOk).2 ∧
      ((tick st variation fallback ts storeOk).1.real_time_data).map Prod.fst
        = realtime_metrics) ∧
    (tick (handle_metric_subscription (some "revenue") c st) variation fallback ts storeOk).2
      = (tick st variation fallback ts storeOk).2 := by
  have hsub : handle_metric_subscription (some "revenue") c st
      = { st with rooms := joinRoom (Room.metric "revenue") c st.rooms } := by
    simp [handle_metric_subscription]
  rw [tick_active st variation fallback ts storeOk halive hne]
  refine ⟨⟨hc, generate_tick_keys st.db variation fallback ts⟩, ?_⟩
  rw [hsub,
    tick_active { st with rooms := joinRoom (Room.metric "revenue") c st.rooms }
      variation fallback ts storeOk halive hne]
  show lookupRoom Room.analytics (joinRoom (Room.metric "revenue") c st.rooms)
    = lookupRoom Room.analytics st.rooms
  exact lookupRoom_joinRoom_ne Room.analytics (Room.metric "revenue") c st.rooms (by simp)

/-- C1 witness: with consumers A and B connected and A subscribed to
nothing, A receives the full tick and A subscribing to revenue would not
change the delivery list. -/
theorem broadcast_delivers_to_all_room_members_witness :
    "A" ∈ lookupRoom Room.analytics
      (handle_connect "B" (handle_connect "A" (initialState []))).rooms ∧
    (("A" ∈ (tick (handle_connect "B" (handle_connect "A" (initialState [])))
          (fun _ => 0) (fun _ => 100) 1 true).2 ∧
        ((tick (handle_connect "B" (handle_connect "A" (initialState [])))
          (fun _ => 0) (fun _ => 100) 1 true).1.real_time_data).map Prod.fst
          = realtime_metrics) ∧
      (tick (handle_metric_subscription (some "revenue") "A"
          (handle_connect "B" (handle_connect "A" (initialState []))))
          (fun _ => 0) (fun _ => 100) 1 true).2
        = (tick (handle_connect "B" (handle_connect "A" (initialState [])))
          (fun _ => 0) (fun _ => 100) 1 true).2) :=
  ⟨by decide,
    broadcast_delivers_to_all_room_members
      (handle_connect "B" (handle_connect "A" (initialState [])))
      (fun _ => 0) (fun _ => 100) 1 true "A" rfl rfl (by decide)⟩

/-- C3 counterexample.  With consumer A connected, a tick whose history
append fails still delivers to A (the emit precedes the store call), but
the uncaught exception terminates the broadcaster thread: the loop does not
tick again, contradicting the claim that the failure is logged and the loop
continues on schedule. -/
theorem store_failure_kills_loop :
    (tick (handle_connect "A" (initialState [])) (fun _ => 0) (fun _ => 100) 1 false).2
      = ["A"] ∧
    (tick (handle_connect "A" (initialState [])) (fun _ => 0) (fun _ => 100) 1
        false).1.threadAlive = false ∧
    tick (tick (handle_connect "A" (initialState [])) (fun _ => 0) (fun _ => 100) 1 false).1
        (fun _ => 0) (fun _ => 100) 6 true
      = ((tick (handle_connect "A" (initialState [])) (fun _ => 0) (fun _ => 100) 1
          false).1, []) :=
  ⟨by decide, rfl, tick_dead _ _ _ _ _ rfl⟩

/-- C3 (amended).  On an active tick whose append fails, fan-out to the
`analytics` room still happens (emit precedes the store call) and no record
is appended, but the failure is not caught: the thread flag drops and every
later wake-up of the loop is a no-op.  Nothing is logged (the code has no
handler at all). -/
theorem store_failure_fanout_and_halt (st : AppState) (variation fallback : String → ℚ)
    (ts : Nat) (halive : st.threadAlive = true)
    (hne : st.connected_clients.isEmpty = false) :
    (tick st variation fallback ts false).2 = lookupRoom Room.analytics st.rooms ∧
    (tick st variation fallback ts false).1.db = st.db ∧
    (tick st variation fallback ts false).1.threadAlive = false ∧
    ∀ ts2 ok2, tick (tick st variation fallback ts false).1 variation fallback ts2 ok2
      = ((tick st variation fallback ts false).1, []) := by
  rw [tick_active st variation fallback ts false halive hne]
  exact ⟨rfl, by simp, rfl, fun ts2 ok2 => tick_dead _ _ _ _ _ rfl⟩

/-- C3 witness: the amended statement at a state with consumer A
connected. -/
theorem store_failure_fanout_and_halt_witness :
    (handle_connect "A" (initialState [])).threadAlive = true ∧
    (handle_connect "A" (initialState [])).connected_clients.isEmpty = false ∧
    ((tick (handle_connect "A" (initialState [])) (fun _ => 0) (fun _ => 100) 1 false).2
        = lookupRoom Room.analytics (handle_connect "A" (initialState [])).rooms ∧
      (tick (handle_connect "A" (initialState [])) (fun _ => 0) (fun _ => 100) 1 false).1.db
        = (handle_connect "A" (initialState [])).db ∧
      (tick (handle_connect "A" (initialState [])) (fun _ => 0) (fun _ => 100) 1
          false).1.threadAlive = false ∧
      ∀ ts2 ok2, tick (tick (handle_connect "A" (initialState []))
            (fun _ => 0) (fun _ => 100) 1 false).1 (fun _ => 0) (fun _ => 100) ts2 ok2
        = ((tick (handle_connect "A" (initialState [])) (fun _ => 0) (fun _ => 100) 1
            false).1, [])) :=
  ⟨rfl, rfl,
    store_failure_fanout_and_halt (handle_connect "A" (initialState []))
      (fun _ => 0) (fun _ => 100) 1 rfl rfl⟩

theorem not_mem_analytics_applyEvent (variation fallback : String → ℚ) (c : String)
    (e : Event) (st : AppState) (hc : c ∉ lookupRoom Room.analytics st.rooms)
    (he : e ≠ Event.connect c) :
    c ∉ lookupRoom Room.analytics (applyEvent variation fallback e st).rooms := by
  cases e with
  | connect sid =>
      have hsid : ¬c = sid := by
        intro h
        exact he (by rw [h])
      show c ∉ lookupRoom Room.analytics (joinRoom Room.analytics sid st.rooms)
      intro hmem
      rcases (mem_lookupRoom_joinRoom_self Room.analytics sid c st.rooms).mp hmem with
        h | h
      · exact hsid h
      · exact hc h
  | disconnect sid =>
      show c ∉ lookupRoom Room.analytics (leaveRoom Room.analytics sid st.rooms)
      intro hmem
      exact hc (mem_lookupRoom_leaveRoom Room.analytics Room.analytics sid c st.rooms hmem)
  | subscribe m sid =>
      cases m with
      | none => exact hc
      | some mm =>
          by_cases hmm : mm = ""
          · simpa [applyEvent, handle_metric_subscription, hmm] using hc
          · show c ∉ lookupRoom Room.analytics
              ((if mm = "" then st
                else { st with rooms := joinRoom (Room.metric mm) sid st.rooms }).rooms)
            rw [if_neg hmm]
            show c ∉ lookupRoom Room.analytics (joinRoom (Room.metric mm) sid st.rooms)
            rw [lookupRoom_joinRoom_ne Room.analytics (Room.metric mm) sid st.rooms (by simp)]
            exact hc
  | timerTick ts ok =>
      show c ∉ lookupRoom Room.analytics (tick st variation fallback ts ok).1.rooms
      rw [tick_rooms]
      exact hc

theorem not_mem_deliveredDuring (variation fallback : String → ℚ) (c : String)
    (events : List Event) (st : AppState) (hc : c ∉ lookupRoom Room.analytics st.rooms)
    (hev : ∀ e ∈ events, e ≠ Event.connect c) :
    c ∉ deliveredDuring variation fallback events st := by
  induction events generalizing st with
  | nil => simp [deliveredDuring]
  | cons e rest ih =>
      have hev1 : e ≠ Event.connect c := hev e (List.mem_cons_self e rest)
      have hevr : ∀ e2 ∈ rest, e2 ≠ Event.connect c :=
        fun e2 h2 => hev e2 (List.mem_cons_of_mem e h2)
      have hnext := not_mem_analytics_applyEvent variation fallback c e st hc hev1
      cases e with
      | connect sid =>
          exact ih (applyEvent variation fallback (Event.connect sid) st) hnext hevr
      | disconnect sid =>
          exact ih (applyEvent variation fallback (Event.disconnect sid) st) hnext hevr
      | subscribe m sid =>
          exact ih (applyEvent variation fallback (Event.subscribe m sid) st) hnext hevr
      | timerTick ts ok =>
          show c ∉ (tick st variation fallback ts ok).2 ++
            deliveredDuring variation fallback rest (tick st variation fallback ts ok).1
          rw [List.mem_append]
          push_neg
          constructor
          · intro hmem
            exact hc (tick_delivered_mem st variation fallback ts ok c hmem)
          · exact ih (tick st variation fallback ts ok).1 hnext hevr

/-- C9.  After `handle_disconnect(c)`, no later broadcast in any run of
events that does not reconnect `c` delivers to `c`; and disconnecting a
consumer that is neither registered nor in the `analytics` room is a no-op
on the whole state (and raises no error). -/
theorem disconnect_no_delivery_idempotent (st : AppState) (c : String)
    (variation fallback : String → ℚ) (events : List Event)
    (hev : ∀ e ∈ events, e ≠ Event.connect c) :
    c ∉ deliveredDuring variation fallback events (handle_disconnect c st) ∧
    (c ∉ st.connected_clients → c ∉ lookupRoom Room.analytics st.rooms →
      handle_disconnect c st = st) := by
  constructor
  · apply not_mem_deliveredDuring variation fallback c events (handle_disconnect c st)
      _ hev
    show c ∉ lookupRoom Room.analytics (leaveRoom Room.analytics c st.rooms)
    exact not_mem_lookupRoom_leaveRoom_self Room.analytics c st.rooms
  · intro h1 h2
    have hfil : st.connected_clients.filter (· != c) = st.connected_clients := by
      apply List.filter_eq_self.mpr
      intro a ha
      rw [bne_iff_ne]
      intro h
      exact h1 (h ▸ ha)
    unfold handle_disconnect
    rw [hfil, leaveRoom_of_not_mem Room.analytics c st.rooms h2]

/-- C9 witness: with A and B connected, after B disconnects a tick delivers
to A only; and the idempotence statement is available at that state. -/
theorem disconnect_no_delivery_idempotent_witness :
    (∀ e ∈ [Event.timerTick 1 true], e ≠ Event.connect "B") ∧
    ("B" ∉ deliveredDuring (fun _ => 0) (fun _ => 100) [Event.timerTick 1 true]
        (handle_disconnect "B"
          (handle_connect "B" (handle_connect "A" (initialState [])))) ∧
      ("B" ∉ (handle_connect "B" (handle_connect "A" (initialState []))).connected_clients →
        "B" ∉ lookupRoom Room.analytics
          (handle_connect "B" (handle_connect "A" (initialState []))).rooms →
        handle_disconnect "B" (handle_connect "B" (handle_connect "A" (initialState [])))
          = handle_connect "B" (handle_connect "A" (initialState [])))) :=
  ⟨by decide,
    disconnect_no_delivery_idempotent
      (handle_connect "B" (handle_connect "A" (initialState []))) "B"
      (fun _ => 0) (fun _ => 100) [Event.timerTick 1 true] (by decide)⟩

theorem generate_tick_mem_revenue (db : List HistoryRecord)
    (variation fallback : String → ℚ) (ts : Nat) :
    ("revenue",
        nextSample (get_latest_metric_value db "revenue" (fallback "revenue"))
          (variation "revenue") ts)
      ∈ generate_tick db variation fallback ts :=
  List.mem_map.mpr ⟨"revenue", by decide, rfl⟩

theorem generate_tick_lookup (db : List HistoryRecord) (variation fallback : String → ℚ)
    (ts : Nat) (p : String × Sample) (hp : p ∈ generate_tick db variation fallback ts) :
    p.2 = nextSample (get_latest_metric_value db p.1 (fallback p.1)) (variation p.1) ts := by
  obtain ⟨m, _, hmp⟩ := List.mem_map.mp hp
  cases hmp
  rfl

theorem nextSample_revenue_example (ts : Nat) :
    nextSample 100 10 ts
      = { value := 110, timestamp := ts, change := 10, change_percent := 10 } := by
  unfold nextSample
  have h1 : round2 (max 0 (100 + 10 : ℚ)) = 110 := by
    rw [max_eq_right (by norm_num : (0 : ℚ) ≤ 100 + 10)]
    norm_num [round2, round_eq]
  have h2 : round2 (10 : ℚ) = 10 := by
    norm_num [round2, round_eq]
  have h3 : (if (100 : ℚ) ≠ 0 then round2 ((10 : ℚ) / 100 * 100) else 0) = 10 := by
    rw [if_pos (by norm_num : (100 : ℚ) ≠ 0)]
    norm_num [round2, round_eq]
  rw [h1, h2, h3]

/-- C8.  On an active tick where the stored previous value of `revenue` is
100 and the drawn variation is +10, the consumer in the `analytics` room
receives the update, the broadcast `new_data` carries the revenue sample
`{value 110, delta 10, delta_percent 10}`, and immediately after the tick
the stored latest value of `revenue` is that same broadcast value 110. -/
theorem tick_revenue_agreement (st : AppState) (variation fallback : String → ℚ) (ts : Nat)
    (A : String)
    (hprev : get_latest_metric_value st.db "revenue" (fallback "revenue") = 100)
    (hvar : variation "revenue" = 10)
    (hts : ∀ r ∈ st.db, r.timestamp < ts)
    (halive : st.threadAlive = true) (hne : st.connected_clients.isEmpty = false)
    (hA : A ∈ lookupRoom Room.analytics st.rooms) :
    A ∈ (tick st variation fallback ts true).2 ∧
    ("revenue",
        ({ value := 110, timestamp := ts, change := 10, change_percent := 10 } : Sample))
      ∈ (tick st variation fallback ts true).1.real_time_data ∧
    get_latest_metric_value (tick st variation fallback ts true).1.db "revenue"
      (fallback "revenue") = 110 := by
  have hns := nextSample_revenue_example ts
  have hmemg := generate_tick_mem_revenue st.db variation fallback ts
  rw [hprev, hvar, hns] at hmemg
  rw [tick_active st variation fallback ts true halive hne]
  refine ⟨hA, hmemg, ?_⟩
  show get_latest_metric_value
    (store_real_time_data st.db (generate_tick st.db variation fallback ts)) "revenue"
    (fallback "revenue") = 110
  have hrec : (⟨"revenue", 110, ts, "realtime", "live"⟩ : HistoryRecord)
      ∈ store_real_time_data st.db (generate_tick st.db variation fallback ts) := by
    unfold store_real_time_data
    rw [List.mem_append]
    right
    exact List.mem_map.mpr
      ⟨("revenue", { value := 110, timestamp := ts, change := 10, change_percent := 10 }),
        hmemg, rfl⟩
  have hrecfl : (⟨"revenue", 110, ts, "realtime", "live"⟩ : HistoryRecord)
      ∈ (store_real_time_data st.db (generate_tick st.db variation fallback ts)).filter
          (fun r => r.metric_name == "revenue") :=
    List.mem_filter.mpr ⟨hrec, rfl⟩
  cases hs : List.insertionSort tsDesc
      ((store_real_time_data st.db (generate_tick st.db variation fallback ts)).filter
        (fun r => r.metric_name == "revenue")) with
  | nil =>
      exfalso
      have hperm : List.Perm (List.insertionSort tsDesc
          ((store_real_time_data st.db (generate_tick st.db variation fallback ts)).filter
            (fun r => r.metric_name == "revenue")))
          ((store_real_time_data st.db (generate_tick st.db variation fallback ts)).filter
            (fun r => r.metric_name == "revenue")) := List.perm_insertionSort tsDesc _
      rw [hs] at hperm
      rw [hperm.symm.eq_nil] at hrecfl
      simp at hrecfl
  | cons r t =>
      obtain ⟨hrfl, hmax⟩ := insertionSort_head_max _ r t hs
      have hrts : ts ≤ r.timestamp := hmax _ hrecfl
      have hrmem := (List.mem_filter.mp hrfl).1
      have hrname : r.metric_name = "revenue" := by
        have := (List.mem_filter.mp hrfl).2
        simpa using this
      unfold store_real_time_data at hrmem
      rcases List.mem_append.mp hrmem with hold | hnew
      · exact absurd hrts (not_le.mpr (hts r hold))
      · obtain ⟨p, hp, hgp⟩ := List.mem_map.mp hnew
        have hp2 := generate_tick_lookup st.db variation fallback ts p hp
        have hp1 : p.1 = "revenue" := by
          rw [← hgp] at hrname
          exact hrname
        have hval : get_latest_metric_value
            (store_real_time_data st.db (generate_tick st.db variation fallback ts))
            "revenue" (fallback "revenue") = r.value := by
          unfold get_latest_metric_value
          rw [hs]
        rw [hval, ← hgp]
        show p.2.value = 110
        rw [hp2, hp1, hprev, hvar, hns]

/-- C8 witness: the agreement instantiated on a one-row table with
`revenue = 100` at time 0, variation +10 drawn at tick time 5, and
consumer A connected. -/
theorem tick_revenue_agreement_witness :
    get_latest_metric_value
        (handle_connect "A" (initialState
          [⟨"revenue", 100, 0, "historical", "system"⟩])).db "revenue"
        ((fun _ => (50 : ℚ)) "revenue") = 100 ∧
    ((fun m => if m = "revenue" then (10 : ℚ) else 0) "revenue" = 10) ∧
    (∀ r ∈ (handle_connect "A" (initialState
        [⟨"revenue", 100, 0, "historical", "system"⟩])).db, r.timestamp < 5) ∧
    ("A" ∈ (tick (handle_connect "A" (initialState
          [⟨"revenue", 100, 0, "historical", "system"⟩]))
          (fun m => if m = "revenue" then (10 : ℚ) else 0) (fun _ => (50 : ℚ)) 5 true).2 ∧
      ("revenue",
          ({ value := 110, timestamp := 5, change := 10, change_percent := 10 } : Sample))
        ∈ (tick (handle_connect "A" (initialState
            [⟨"revenue", 100, 0, "historical", "system"⟩]))
            (fun m => if m = "revenue" then (10 : ℚ) else 0) (fun _ => (50 : ℚ)) 5
            true).1.real_time_data ∧
      get_latest_metric_value (tick (handle_connect "A" (initialState
            [⟨"revenue", 100, 0, "historical", "system"⟩]))
            (fun m => if m = "revenue" then (10 : ℚ) else 0) (fun _ => (50 : ℚ)) 5
            true).1.db "revenue" ((fun _ => (50 : ℚ)) "revenue") = 110) :=
  ⟨by decide, rfl, by decide,
    tick_revenue_agreement
      (handle_connect "A" (initialState [⟨"revenue", 100, 0, "historical", "system"⟩]))
      (fun m => if m = "revenue" then (10 : ℚ) else 0) (fun _ => (50 : ℚ)) 5 "A"
      (by decide) rfl (by decide) rfl rfl (by decide)⟩

theorem generate_tick_rounded (db : List HistoryRecord) (variation fallback : String → ℚ)
    (ts : Nat) :
    ∀ p ∈ generate_tick db variation fallback ts, round2 p.2.value = p.2.value := by
  intro p hp
  obtain ⟨m, _, hmp⟩ := List.mem_map.mp hp
  cases hmp
  exact round2_idem _

/-- The snapshot invariant: `real_time_data` is either still the initial
empty dict or carries entries for exactly the five broadcast metrics, each
with a 2-decimal-rounded value. -/
def snapshotInv (st : AppState) : Prop :=
  st.real_time_data = [] ∨
    (st.real_time_data.map Prod.fst = realtime_metrics ∧
      ∀ p ∈ st.real_time_data, round2 p.2.value = p.2.value)

theorem snapshotInv_applyEvent (variation fallback : String → ℚ) (e : Event) (st : AppState)
    (h : snapshotInv st) : snapshotInv (applyEvent variation fallback e st) := by
  cases e with
  | connect sid => exact h
  | disconnect sid => exact h
  | subscribe m sid =>
      cases m with
      | none => exact h
      | some mm =>
          by_cases hmm : mm = ""
          · simpa [applyEvent, handle_metric_subscription, hmm] using h
          · simpa [applyEvent, handle_metric_subscription, hmm] using h
  | timerTick ts ok =>
      show snapshotInv (tick st variation fallback ts ok).1
      cases halive : st.threadAlive with
      | false => rw [tick_dead st variation fallback ts ok halive]; exact h
      | true =>
          cases hne : st.connected_clients.isEmpty with
          | true => rw [tick_idle st variation fallback ts ok hne]; exact h
          | false =>
              rw [tick_active st variation fallback ts ok halive hne]
              right
              exact ⟨generate_tick_keys st.db variation fallback ts,
                generate_tick_rounded st.db variation fallback ts⟩

theorem snapshotInv_runEvents (variation fallback : String → ℚ) (events : List Event)
    (st : AppState) (h : snapshotInv st) :
    snapshotInv (runEvents variation fallback events st) := by
  induction events generalizing st with
  | nil => exact h
  | cons e rest ih =>
      exact ih (applyEvent variation fallback e st)
        (snapshotInv_applyEvent variation fallback e st h)

/-- C10.  In every run of events from process start, the shared snapshot is
either empty (no active tick has happened yet) or holds entries for exactly
the five broadcast metrics, each with a value already rounded to two
decimals; the realtime endpoint returns exactly this snapshot; and an
active tick replaces the snapshot wholesale with the freshly generated
`new_data`. -/
theorem realtime_snapshot_invariant (variation fallback : String → ℚ)
    (db0 : List HistoryRecord) (events : List Event) :
    snapshotInv (runEvents variation fallback events (initialState db0)) ∧
    realtime_data (runEvents variation fallback events (initialState db0))
      = (runEvents variation fallback events (initialState db0)).real_time_data ∧
    (∀ ts ok,
      (runEvents variation fallback events (initialState db0)).threadAlive = true →
      (runEvents variation fallback events (initialState db0)).connected_clients.isEmpty
        = false →
      (tick (runEvents variation fallback events (initialState db0))
          variation fallback ts ok).1.real_time_data
        = generate_tick (runEvents variation fallback events (initialState db0)).db
            variation fallback ts) := by
  refine ⟨snapshotInv_runEvents variation fallback events (initialState db0)
    (Or.inl rfl), rfl, ?_⟩
  intro ts ok halive hne
  rw [tick_active _ variation fallback ts ok halive hne]

/-- C10 witness: the invariant evaluated after a connect followed by one
active tick. -/
theorem realtime_snapshot_invariant_witness :
    snapshotInv (runEvents (fun _ => 0) (fun _ => 100)
      [Event.connect "A", Event.timerTick 1 true] (initialState [])) ∧
    realtime_data (runEvents (fun _ => 0) (fun _ => 100)
        [Event.connect "A", Event.timerTick 1 true] (initialState []))
      = (runEvents (fun _ => 0) (fun _ => 100)
          [Event.connect "A", Event.timerTick 1 true] (initialState [])).real_time_data ∧
    (∀ ts ok,
      (runEvents (fun _ => 0) (fun _ => 100)
          [Event.connect "A", Event.timerTick 1 true] (initialState [])).threadAlive = true →
      (runEvents (fun _ => 0) (fun _ => 100)
          [Event.connect "A", Event.timerTick 1 true]
          (initialState [])).connected_clients.isEmpty = false →
      (tick (runEvents (fun _ => 0) (fun _ => 100)
            [Event.connect "A", Event.timerTick 1 true] (initialState []))
          (fun _ => 0) (fun _ => 100) ts ok).1.real_time_data
        = generate_tick (runEvents (fun _ => 0) (fun _ => 100)
              [Event.connect "A", Event.timerTick 1 true] (initialState [])).db
            (fun _ => 0) (fun _ => 100) ts) :=
  realtime_snapshot_invariant (fun _ => 0) (fun _ => 100) []
    [Event.connect "A", Event.timerTick 1 true]

end Analytics
